import Mathlib

/-!
Verification of grading behaviour in `common/lib/capa/capa/responsetypes.py`.

Shallow embedding conventions:

* Correctness verdicts are the literal Python strings used by the source
  ("correct", "incorrect", "unknown").
* The `CorrectMap` class lives in `capa/correctmap.py`, which is not part of
  the source tree here; it is modelled from the spec (section 3,
  CorrectnessMap) as a partial map from answer id to a record of optional
  fields, with pointwise update.
* `compare_with_tolerance` lives in `capa/util.py`, also absent from the
  source tree; it is modelled from the spec (section 4.1, tolerance
  semantics).
* The external expression evaluator (`calc.evaluator`) and the random
  sampler are collaborators outside this repository; evaluator calls are
  modelled as functions from a variable-binding environment to an outcome,
  and the sampled bindings of each Monte-Carlo trial are an explicit list.
* Python exceptions are modelled with `Except`; machine floats are modelled
  as rationals together with explicit NaN / infinity flags.
-/

namespace Capa

/-- Record stored per answer id in a CorrectnessMap.  Modelled from the spec:
the CorrectMap class of capa/correctmap.py is not under src/; the spec
(section 3) describes it as a mapping from answer id to a record of a
correctness verdict plus optional message, hint and hint mode.  Every field
is optional because `set_property` style updates may create an entry holding
only the updated field. -/
structure CmapEntry where
  correctness : Option String
  msg : Option String
  hint : Option String
  hintmode : Option String
deriving DecidableEq

/-- Modelled from the spec: a CorrectnessMap is a partial map from answer id
to its record (capa/correctmap.py is not under src/). -/
def CMap : Type := String → Option CmapEntry

/-- Pointwise update, the `CorrectMap.set` operation. -/
def CMap.set (m : CMap) (aid : String) (e : CmapEntry) : CMap :=
  fun k => if k = aid then some e else m k

/-- The empty CorrectnessMap. -/
def CMap.empty : CMap := fun _ => none

/-- CorrectMap built by the one-entry constructor
`CorrectMap(answer_id, correctness, msg=...)`; the constructor defaults the
message to the empty string when no message is passed. -/
def CMap.single (aid correctness msg : String) : CMap :=
  CMap.empty.set aid ⟨some correctness, some msg, none, none⟩

/-- The `set_hint_and_mode` operation of CorrectMap: store hint text and
hint display mode on the entry of one answer id, creating the entry when it
is absent.  Modelled from the spec (section 3): hint and hint mode are
optional fields of the per-answer record. -/
def CMap.set_hint_and_mode (m : CMap) (aid hint hintmode : String) : CMap :=
  fun k =>
    if k = aid then
      match m aid with
      | some e => some { e with hint := some hint, hintmode := some hintmode }
      | none => some ⟨none, none, some hint, some hintmode⟩
    else m k

/-! ### Tolerance comparison (capa/util.py, modelled from the spec) -/

/-- A tolerance specification: an absolute numeric bound, or a percentage
bound when the configured tolerance string carries a percent suffix. -/
inductive Tolerance where
  | absolute (t : ℚ)
  | percent (t : ℚ)
deriving DecidableEq

/-- Modelled from the spec: `compare_with_tolerance` of capa/util.py is not
under src/.  Spec section 4.1: tolerance may be given as an absolute numeric
bound or, when suffixed as a percentage, as bound = tolerance percent times
the magnitude of the expected value; the comparison is
magnitude of (given - expected) less than or equal to the bound. -/
def within_tolerance (given expected : ℚ) (tol : Tolerance) : Bool :=
  match tol with
  | .absolute t => decide (|given - expected| ≤ t)
  | .percent t => decide (|given - expected| ≤ t / 100 * |expected|)

/-- The nominal tolerance value carried by a tolerance specification. -/
def Tolerance.value : Tolerance → ℚ
  | .absolute t => t
  | .percent t => t

/-- Result of one call of the external expression evaluator: a number,
carried as a rational with explicit NaN / infinity flags (the source probes
the result with numpy.isnan and numpy.isinf). -/
structure EvalNum where
  isNaN : Bool
  isInf : Bool
  val : ℚ
deriving DecidableEq

/-- Modelled from the spec: the lifting of `compare_with_tolerance` to
evaluator results.  Spec section 4.1: non-finite (NaN or infinite) computed
results are always incorrect regardless of tolerance. -/
def compare_with_tolerance (v1 v2 : EvalNum) (tol : Tolerance) : Bool :=
  if v1.isNaN || v1.isInf || v2.isNaN || v2.isInf then false
  else within_tolerance v1.val v2.val tol

/-! ### MultipleChoiceResponse and TrueFalseResponse -/

/-- `MultipleChoiceResponse.get_score` (responsetypes.py lines 310-318):
the verdict is correct when the answer id is a key of `student_answers`
(membership test, not indexing) and the bound value is one of the declared
correct choices; otherwise incorrect.  The student answer dict is embedded
as an association list. -/
def multipleChoiceResponse_get_score (answer_id : String)
    (correct_choices : List String)
    (student_answers : List (String × String)) : CMap :=
  match student_answers.lookup answer_id with
  | some v =>
      if v ∈ correct_choices then CMap.single answer_id "correct" ""
      else CMap.single answer_id "incorrect" ""
  | none => CMap.single answer_id "incorrect" ""

/-- `TrueFalseResponse.get_score` (responsetypes.py lines 338-345): build
the set of declared correct choices and the set of submitted choice ids
(defaulting to the empty list when the answer id is absent); the verdict is
correct exactly on set equality.  The submitted value of a truefalse
response is a list of choice ids. -/
def trueFalseResponse_get_score (answer_id : String)
    (correct_choices : List String)
    (student_answers : List (String × List String)) : CMap :=
  let correct := correct_choices.toFinset
  let answers := ((student_answers.lookup answer_id).getD []).toFinset
  if correct = answers then CMap.single answer_id "correct" ""
  else CMap.single answer_id "incorrect" ""

/-! ### ImageResponse -/

/-- The per-field comparison of `ImageResponse.get_score` (responsetypes.py
lines 1180-1184): the click (gx, gy) is correct when it lies inside the
declared rectangle, inclusive on all four boundaries.  The rectangle string
and the bracketed point are parsed by regular expressions matching
nonnegative integers; the coordinates are embedded as already-parsed
naturals. -/
def imageResponse_score_one (llx lly urx ury gx gy : ℕ) : String :=
  if llx ≤ gx ∧ gx ≤ urx ∧ lly ≤ gy ∧ gy ≤ ury then "correct" else "incorrect"

/-- `ImageResponse.get_score` (responsetypes.py lines 1158-1185): loop over
the imageinput fields, each contributing one entry to the CorrectMap;
`correct_map.set(aid, ...)` passes no message so the entry message defaults
to the empty string. -/
def imageResponse_get_score
    (fields : List (String × (ℕ × ℕ × ℕ × ℕ) × (ℕ × ℕ))) : CMap :=
  fields.foldl
    (fun m f =>
      let aid := f.1
      let llx := f.2.1.1
      let lly := f.2.1.2.1
      let urx := f.2.1.2.2.1
      let ury := f.2.1.2.2.2
      let gx := f.2.2.1
      let gy := f.2.2.2
      m.set aid ⟨some (imageResponse_score_one llx lly urx ury gx gy), some "", none, none⟩)
    CMap.empty

/-! ### FormulaResponse.check_formula -/

/-- A variable-binding environment handed to the expression evaluator: the
per-trial sampled value of each sampling variable. -/
def Env : Type := List (String × ℚ)

/-- Outcome of one call of the external `calc.evaluator` collaborator. -/
inductive EvalOutcome where
  | ok (v : EvalNum)
  | undefinedVar (name : String)
  | evalError (msg : String)

/-- The exceptional exits of `check_formula`: a raised `StudentInputError`,
or an exception of the unguarded instructor-side evaluation propagating
uncaught (an `UndefinedVariable` or any other evaluator error). -/
inductive CheckError where
  | studentInput (msg : String)
  | uncaughtUndefinedVariable (name : String)
  | uncaughtError (msg : String)
deriving DecidableEq

/-- Whether a `check_formula` result is a raised StudentInputError. -/
def raisesStudentInput (r : Except CheckError String) : Bool :=
  match r with
  | .error (.studentInput _) => true
  | _ => false

/-- `FormulaResponse.check_formula` (responsetypes.py lines 1040-1073).
The loop over the configured number of samples is embedded as a list of
sampled binding environments, one per trial; `ieval` is the instructor-side
evaluator call (full stripped context plus the bindings) and `seval` the
student-side call (bindings only), both applied to the same per-trial
bindings, mirroring that the source stores the same random value in
`instructor_variables` and `student_variables`.  Per trial: the instructor
evaluation runs outside any try block, so its exceptions propagate; the
student evaluation is guarded, an UndefinedVariable becoming
`StudentInputError(message + " not permitted in answer")` and any other
error `StudentInputError("Error in formula")`; a NaN or infinite student
result returns "incorrect", as does a result outside tolerance of the
instructor result; if every trial passes the result is "correct". -/
def formulaResponse_check_formula (ieval seval : Env → EvalOutcome)
    (samples : List Env) (tol : Tolerance) : Except CheckError String :=
  match samples with
  | [] => .ok "correct"
  | env :: rest =>
    match ieval env with
    | .undefinedVar n => .error (.uncaughtUndefinedVariable n)
    | .evalError m => .error (.uncaughtError m)
    | .ok instructor_result =>
      match seval env with
      | .undefinedVar n => .error (.studentInput (n ++ " not permitted in answer"))
      | .evalError _ => .error (.studentInput "Error in formula")
      | .ok student_result =>
        if student_result.isNaN || student_result.isInf then .ok "incorrect"
        else if !compare_with_tolerance student_result instructor_result tol then .ok "incorrect"
        else formulaResponse_check_formula ieval seval rest tol

/-- One trial passes: both evaluations return, the student result is finite
and it is within tolerance of the instructor result. -/
def trialPasses (ieval seval : Env → EvalOutcome) (tol : Tolerance)
    (env : Env) : Bool :=
  match ieval env, seval env with
  | .ok ir, .ok sr => !sr.isNaN && !sr.isInf && compare_with_tolerance sr ir tol
  | _, _ => false

/-- One trial evaluates without an exception on both sides. -/
def trialEvalsOk (ieval seval : Env → EvalOutcome) (env : Env) : Bool :=
  match ieval env, seval env with
  | .ok _, .ok _ => true
  | _, _ => false

/-! ### External grader award-code ingestion -/

/-- Python `sorted` on a list of strings, used for `sorted(self.answer_ids)`:
insertion sort by the lexicographic string order. -/
def insertSorted (a : String) : List String → List String
  | [] => [a]
  | b :: bs => if a ≤ b then a :: b :: bs else b :: insertSorted a bs

/-- Python `sorted` for string lists. -/
def pySorted (l : List String) : List String :=
  l.foldr insertSorted []

/-- The fixed award-detail vocabulary `admap` of responsetypes.py lines
754-756 and 946-948: a dict mapping EXACT_ANS to correct and WRONG_FORMAT
to incorrect. -/
def admap (ad : String) : Option String :=
  if ad = "EXACT_ANS" then some "correct"
  else if ad = "WRONG_FORMAT" then some "incorrect"
  else none

/-- The verdict the ingestion code ends up with for award-detail code `ad`:
`context['correct']` starts as the one-element list ["correct"] and slot 0
is overwritten only when `ad` is a key of `admap`. -/
def awardVerdict (ad : String) : String :=
  match admap ad with
  | some c => c
  | none => "correct"

/-- The `for key in idset` loop of the award ingestion (responsetypes.py
lines 762-766 and 953-957): for each key, `idx = idset.index(key)` and the
stored verdict is `correct[idx]`, with the message (its nbsp entities
rewritten) attached only at index 0 and None elsewhere.  Indexing
`correct[idx]` out of range raises an IndexError, modelled as an
`Except.error`. -/
def awardLoop (idset correctL : List String) (message : String) :
    List String → CMap → Except String CMap
  | [], m => Except.ok m
  | key :: rest, m =>
    let idx := idset.indexOf key
    match correctL.get? idx with
    | some c =>
        let msg := if idx = 0 then some (message.replace "&nbsp;" "&#160;") else none
        awardLoop idset correctL message rest (m.set key ⟨some c, msg, none, none⟩)
    | none => Except.error "IndexError"

/-- Shared shape of the award ingestion (responsetypes.py lines 751-767 and
945-959): `idset = sorted(answer_ids)`; `context['correct']` is the
one-element verdict list `[awardVerdict ad]` (initialized to ["correct"]
and slot 0 overwritten through admap); then the loop fills the map. -/
def awardIngest (answer_ids : List String) (ad : String)
    (message : String) : Except String CMap :=
  let idset := pySorted answer_ids
  awardLoop idset [awardVerdict ad] message idset CMap.empty

/-- `CodeResponse.update_score` (responsetypes.py lines 742-767), after the
external lxml parse of the callback XML has yielded the awarddetail code and
the message text. -/
def codeResponse_update_score (answer_ids : List String) (ad : String)
    (message : String) : Except String CMap :=
  awardIngest answer_ids ad message

/-- The synchronous ingestion tail of `ExternalResponse.get_score`
(responsetypes.py lines 945-959), after `do_external_request` has succeeded
and the response XML has yielded the awarddetail code and the message text;
the source comment on line 750 notes this logic is lifted directly between
the two classes. -/
def externalResponse_get_score_ingest (answer_ids : List String) (ad : String)
    (message : String) : Except String CMap :=
  awardIngest answer_ids ad message

/-! ### CustomResponse.get_score -/

/-- A Python value returned by a callable checker (`cfn`): a dict (whose
`ok` and `msg` keys may each be present or absent), a boolean, an integer, a
string, or None.  These shapes cover the branch test `type(ret)==dict` and
Python truthiness in the source. -/
inductive CheckerRet where
  | dict (ok : Option Bool) (msg : Option String)
  | bool (b : Bool)
  | int (n : Int)
  | str (s : String)
  | pynone

/-- Whether the returned value is a dict (`type(ret)==dict`). -/
def CheckerRet.isDict : CheckerRet → Bool
  | .dict _ _ => true
  | _ => false

/-- Python truthiness of a non-dict checker return value, as consumed by
`correct = ['correct']*len(idset) if ret else ['incorrect']*len(idset)`.
(The dict case never reaches this test in the source; a Python dict is
truthy when nonempty, and our dict values carry at least no decidable
content, so the value returned here for dicts is irrelevant to the
embedding and fixed as true.) -/
def CheckerRet.truthy : CheckerRet → Bool
  | .dict _ _ => true
  | .bool b => b
  | .int n => n != 0
  | .str s => s != ""
  | .pynone => false

/-- The red-font message of the early return for an empty single
submission. -/
def noAnswerMsg : String := "<font color=\"red\">No answer entered!</font>"

/-- Result of one `CustomResponse.get_score` call, augmented with two
booleans recording whether the checker was consulted and whether the
evaluation context was updated with the submission (the `context.update`
of lines 578-592), so the early-return path can be distinguished. -/
structure CustomScoreOutcome where
  cmap : CMap
  checkerRan : Bool
  contextUpdated : Bool

/-- The final loop of `CustomResponse.get_score` (lines 649-652): set each
answer id of the ordered idset to its verdict and message. -/
def buildCorrectMap (idset correct messages : List String) : CMap :=
  (idset.zip (correct.zip messages)).foldl
    (fun m p => m.set p.1 ⟨some p.2.1, some p.2.2, none, none⟩)
    CMap.empty

/-- The callable-checker branch of `CustomResponse.get_score` (lines
602-652), entered after the evaluation context has been updated; `ret` is
the value returned by the checker function and `cleanup` stands for the
external lxml/BeautifulSoup message rewriting of lines 634-642.  A dict
result reads `ret['ok']` and `ret['msg']` (a missing key raising KeyError,
and `messages[0] = msg` raising IndexError when there are no answer ids);
any other result is folded through Python truthiness into an all-correct or
all-incorrect verdict list with empty messages. -/
def customResponse_run_checker (idset _submission : List String)
    (ret : CheckerRet) (cleanup : String → String) :
    Except String CustomScoreOutcome :=
  match ret with
  | .dict ok msg =>
    match ok with
    | none => .error "KeyError"
    | some okv =>
      let correct := List.replicate idset.length (if okv then "correct" else "incorrect")
      match msg with
      | none => .error "KeyError"
      | some m =>
        match idset.length with
        | 0 => .error "IndexError"
        | Nat.succ k =>
          let messages := cleanup m :: List.replicate k ""
          .ok ⟨buildCorrectMap idset correct messages, true, true⟩
  | other =>
      let correct := List.replicate idset.length (if other.truthy then "correct" else "incorrect")
      let messages := List.replicate idset.length ""
      .ok ⟨buildCorrectMap idset correct messages, true, true⟩

/-- `CustomResponse.get_score` (responsetypes.py lines 549-652), for a
callable checker.  `idset = sorted(answer_ids)`; the ordered submission
list is built by indexing `student_answers` (a missing key raising an
error, lines 558-564); when there is exactly one box and its submission is
falsy (the empty string) the function returns the single-entry incorrect
map with the no-answer message before the context update and before the
checker runs (lines 569-571). -/
def customResponse_get_score (answer_ids : List String)
    (student_answers : List (String × String)) (ret : CheckerRet)
    (cleanup : String → String) : Except String CustomScoreOutcome := do
  let idset := pySorted answer_ids
  let submission ← idset.mapM (fun k =>
    match student_answers.lookup k with
    | some v => Except.ok v
    | none => Except.error "KeyError")
  match idset, submission with
  | [aid], [sub] =>
      if sub = "" then
        Except.ok ⟨CMap.single aid "incorrect" noAnswerMsg, false, false⟩
      else customResponse_run_checker [aid] [sub] ret cleanup
  | ids, subs => customResponse_run_checker ids subs ret cleanup

/-! ### Condition-based hint attachment -/

/-- One `<hintpart>` stanza: the name of the condition it fires on (its
`on` attribute) and its hint text. -/
structure HintPart where
  onName : String
  text : String
deriving DecidableEq

/-- The condition-based branch of `LoncapaResponse.get_hints`
(responsetypes.py lines 219-228), entered when no hint function is
declared: `hints_to_show` is the list of satisfied condition names returned
by `check_hint_condition`, `hintmode` the mode attribute of the hint group;
for every hintpart whose `on` attribute is among the satisfied conditions,
the hint text and mode are stored on the last answer id of the ordered
field list (`self.answer_ids[-1]`, an IndexError when that list is empty,
modelled as an `Except.error`). -/
def loncapaResponse_get_hints (answer_ids : List String)
    (hints_to_show : List String) (hintmode : String)
    (hintparts : List HintPart) (new_cmap : CMap) : Except String CMap :=
  match hintparts with
  | [] => Except.ok new_cmap
  | hp :: rest =>
    if hp.onName ∈ hints_to_show then
      match answer_ids.getLast? with
      | some aid =>
          loncapaResponse_get_hints answer_ids hints_to_show hintmode rest
            (new_cmap.set_hint_and_mode aid hp.text hintmode)
      | none => Except.error "IndexError"
    else loncapaResponse_get_hints answer_ids hints_to_show hintmode rest new_cmap

/-- One step of scanning for the last matching hintpart. -/
def lastMatchingStep (hints_to_show : List String) (acc : Option HintPart)
    (hp : HintPart) : Option HintPart :=
  if hp.onName ∈ hints_to_show then some hp else acc

/-- The last hintpart in document order whose condition name is among the
satisfied conditions; formalizes the last-write-wins target of the hint
loop. -/
def lastMatching (hints_to_show : List String) (hintparts : List HintPart) :
    Option HintPart :=
  hintparts.foldl (lastMatchingStep hints_to_show) none

/-- Net effect of the hint loop on the entry of the targeted answer id:
no matching hintpart leaves the entry alone; a (last) matching hintpart
stores its text and the group mode on the entry, preserving the other
fields, creating the entry when absent. -/
def applyHint (hintmode : String) (o : Option HintPart)
    (e : Option CmapEntry) : Option CmapEntry :=
  match o with
  | none => e
  | some hp =>
    match e with
    | some en => some { en with hint := some hp.text, hintmode := some hintmode }
    | none => some ⟨none, none, some hp.text, some hintmode⟩

/-! ## Theorems -/

/-- Reading a single-entry CorrectMap at its own answer id. -/
theorem CMap.single_self (aid c msg : String) :
    CMap.single aid c msg aid = some ⟨some c, some msg, none, none⟩ := by
  simp [CMap.single, CMap.set, CMap.empty]

/-- Claim C9: when the multiple-choice answer id is absent from the student
answer dict, or bound to a value outside the declared correct-choice set,
get_score yields an incorrect verdict for that answer id; the function is
total (a membership test guards the indexing), so no error is raised. -/
theorem multiplechoice_missing_or_wrong_incorrect (answer_id : String)
    (correct_choices : List String) (student_answers : List (String × String))
    (h : ∀ v, student_answers.lookup answer_id = some v → v ∉ correct_choices) :
    multipleChoiceResponse_get_score answer_id correct_choices student_answers answer_id
      = some ⟨some "incorrect", some "", none, none⟩ := by
  unfold multipleChoiceResponse_get_score
  cases hv : student_answers.lookup answer_id with
  | none => exact CMap.single_self answer_id "incorrect" ""
  | some v =>
      dsimp only
      rw [if_neg (h v hv)]
      exact CMap.single_self answer_id "incorrect" ""

theorem multiplechoice_missing_or_wrong_incorrect_witness :
    multipleChoiceResponse_get_score "a1" ["choice_1"] [("a1", "choice_2")] "a1"
      = some ⟨some "incorrect", some "", none, none⟩ :=
  multiplechoice_missing_or_wrong_incorrect "a1" ["choice_1"] [("a1", "choice_2")]
    (by intro v hv; simp [List.lookup] at hv; subst hv; decide)

/-- Claim C5: true/false grading is exact set equality of the submitted
choice ids against the declared correct-choice set; a strict subset and a
strict superset of the declared set are both incorrect. -/
theorem truefalse_set_equality (answer_id : String) (correct_choices : List String)
    (student_answers : List (String × List String)) :
    (trueFalseResponse_get_score answer_id correct_choices student_answers answer_id
        = some ⟨some "correct", some "", none, none⟩
      ↔ correct_choices.toFinset
          = ((student_answers.lookup answer_id).getD []).toFinset) ∧
    (((student_answers.lookup answer_id).getD []).toFinset ⊂ correct_choices.toFinset →
      trueFalseResponse_get_score answer_id correct_choices student_answers answer_id
        = some ⟨some "incorrect", some "", none, none⟩) ∧
    (correct_choices.toFinset ⊂ ((student_answers.lookup answer_id).getD []).toFinset →
      trueFalseResponse_get_score answer_id correct_choices student_answers answer_id
        = some ⟨some "incorrect", some "", none, none⟩) := by
  unfold trueFalseResponse_get_score
  by_cases h : correct_choices.toFinset
      = ((student_answers.lookup answer_id).getD []).toFinset
  · rw [if_pos h]
    refine ⟨⟨fun _ => h, fun _ => CMap.single_self answer_id "correct" ""⟩, ?_, ?_⟩
    · intro hss; exact absurd (h ▸ hss) (ssubset_irrefl _)
    · intro hss; exact absurd (h ▸ hss) (ssubset_irrefl _)
  · rw [if_neg h]
    refine ⟨⟨fun hc => ?_, fun hc => absurd hc h⟩, fun _ => ?_, fun _ => ?_⟩
    · rw [CMap.single_self answer_id "incorrect" ""] at hc
      simp at hc
    · exact CMap.single_self answer_id "incorrect" ""
    · exact CMap.single_self answer_id "incorrect" ""

theorem truefalse_set_equality_witness :
    trueFalseResponse_get_score "a" ["choice_1", "choice_2"]
        [("a", ["choice_2", "choice_1"])] "a"
      = some ⟨some "correct", some "", none, none⟩ ∧
    trueFalseResponse_get_score "a" ["choice_1", "choice_2"]
        [("a", ["choice_1"])] "a"
      = some ⟨some "incorrect", some "", none, none⟩ :=
  ⟨(truefalse_set_equality "a" ["choice_1", "choice_2"]
      [("a", ["choice_2", "choice_1"])]).1.mpr (by decide),
   (truefalse_set_equality "a" ["choice_1", "choice_2"]
      [("a", ["choice_1"])]).2.1 (by decide)⟩

/-- Claim C6 counterexample: with a percentage tolerance the comparison is
not symmetric, because the bound scales with the magnitude of the expected
value only: 100 is within 60 percent of 200, but 200 is not within
60 percent of 100. -/
theorem within_tolerance_percent_asymmetry_counterexample :
    within_tolerance 100 200 (Tolerance.percent 60) = true ∧
    within_tolerance 200 100 (Tolerance.percent 60) = false := by
  constructor <;>
    simp only [within_tolerance, decide_eq_true_eq, decide_eq_false_iff_not] <;>
    norm_num

/-- Claim C6 amended: the tolerance comparison is symmetric for absolute
tolerances, and reflexive for every nonnegative tolerance (absolute or
percentage). -/
theorem within_tolerance_symmetry_and_reflexivity (a b t : ℚ) (tol : Tolerance)
    (ht : 0 ≤ tol.value) :
    within_tolerance a b (Tolerance.absolute t)
      = within_tolerance b a (Tolerance.absolute t) ∧
    within_tolerance a a tol = true := by
  constructor
  · unfold within_tolerance
    rw [abs_sub_comm]
  · cases tol with
    | absolute s =>
        simp only [within_tolerance, sub_self, abs_zero, decide_eq_true_eq]
        exact ht
    | percent s =>
        simp only [within_tolerance, sub_self, abs_zero, decide_eq_true_eq]
        exact mul_nonneg (div_nonneg ht (by norm_num)) (abs_nonneg a)

theorem within_tolerance_symmetry_and_reflexivity_witness :
    within_tolerance 4 5 (Tolerance.absolute 2)
      = within_tolerance 5 4 (Tolerance.absolute 2) ∧
    within_tolerance 7 7 (Tolerance.percent 3) = true :=
  ⟨(within_tolerance_symmetry_and_reflexivity 4 5 2 (Tolerance.percent 3) (by decide)).1,
   (within_tolerance_symmetry_and_reflexivity 7 7 2 (Tolerance.percent 3) (by decide)).2⟩

/-- Claim C7: image-region grading is an inclusive rectangle test: the
verdict is correct exactly when the click lies within the declared
rectangle, all four corners (and hence all edge points) are correct, any
point strictly outside an edge is incorrect, and get_score stores exactly
this per-field verdict in the map. -/
theorem image_region_inclusive (llx lly urx ury : ℕ)
    (h1 : llx ≤ urx) (h2 : lly ≤ ury) :
    (∀ gx gy, imageResponse_score_one llx lly urx ury gx gy = "correct" ↔
      (llx ≤ gx ∧ gx ≤ urx ∧ lly ≤ gy ∧ gy ≤ ury)) ∧
    (imageResponse_score_one llx lly urx ury llx lly = "correct" ∧
     imageResponse_score_one llx lly urx ury llx ury = "correct" ∧
     imageResponse_score_one llx lly urx ury urx lly = "correct" ∧
     imageResponse_score_one llx lly urx ury urx ury = "correct") ∧
    (∀ gx gy, (gx < llx ∨ urx < gx ∨ gy < lly ∨ ury < gy) →
      imageResponse_score_one llx lly urx ury gx gy = "incorrect") ∧
    (∀ aid gx gy,
      imageResponse_get_score [(aid, (llx, lly, urx, ury), (gx, gy))] aid
        = some ⟨some (imageResponse_score_one llx lly urx ury gx gy),
                some "", none, none⟩) := by
  refine ⟨?_, ⟨?_, ?_, ?_, ?_⟩, ?_, ?_⟩
  · intro gx gy
    unfold imageResponse_score_one
    by_cases h : llx ≤ gx ∧ gx ≤ urx ∧ lly ≤ gy ∧ gy ≤ ury
    · rw [if_pos h]; simpa using h
    · rw [if_neg h]; simp [h]
  · unfold imageResponse_score_one; rw [if_pos ⟨le_refl _, h1, le_refl _, h2⟩]
  · unfold imageResponse_score_one; rw [if_pos ⟨le_refl _, h1, h2, le_refl _⟩]
  · unfold imageResponse_score_one; rw [if_pos ⟨h1, le_refl _, le_refl _, h2⟩]
  · unfold imageResponse_score_one; rw [if_pos ⟨h1, le_refl _, h2, le_refl _⟩]
  · intro gx gy h
    unfold imageResponse_score_one
    rw [if_neg]
    omega
  · intro aid gx gy
    simp [imageResponse_get_score, CMap.set, CMap.empty]

theorem image_region_inclusive_witness :
    imageResponse_score_one 10 10 20 30 10 30 = "correct" ∧
    imageResponse_score_one 10 10 20 30 9 20 = "incorrect" :=
  ⟨(image_region_inclusive 10 10 20 30 (by decide) (by decide)).2.1.2.1,
   (image_region_inclusive 10 10 20 30 (by decide) (by decide)).2.2.1 9 20 (by decide)⟩

/-- Claim C10: with exactly one answer field and an empty (falsy)
submission, CustomResponse.get_score returns the single-entry incorrect map
carrying the no-answer message, with the checker not consulted and the
evaluation context not updated. -/
theorem custom_empty_single_submission_early_return (answer_ids : List String)
    (student_answers : List (String × String)) (ret : CheckerRet)
    (cleanup : String → String) (aid : String)
    (h1 : pySorted answer_ids = [aid])
    (h2 : student_answers.lookup aid = some "") :
    customResponse_get_score answer_ids student_answers ret cleanup =
      Except.ok ⟨CMap.single aid "incorrect" noAnswerMsg, false, false⟩ := by
  unfold customResponse_get_score
  rw [h1]
  simp [List.mapM.loop, h2, Bind.bind, Except.bind, Pure.pure, Except.pure]

theorem custom_empty_single_submission_early_return_witness :
    customResponse_get_score ["a"] [("a", "")] (CheckerRet.int 7) (fun s => s) =
      Except.ok ⟨CMap.single "a" "incorrect" noAnswerMsg, false, false⟩ :=
  custom_empty_single_submission_early_return ["a"] [("a", "")] (CheckerRet.int 7)
    (fun s => s) "a" rfl rfl

/-- Claim C3 counterexample: a checker returning the integer 7 (neither a
dict with a correctness flag nor a boolean) is not rejected: get_score
succeeds and folds it into a correct verdict. -/
theorem custom_nondict_result_counterexample :
    (customResponse_get_score ["a"] [("a", "7")] (CheckerRet.int 7) (fun s => s)).isOk
      = true ∧
    ((customResponse_get_score ["a"] [("a", "7")] (CheckerRet.int 7) (fun s => s)).toOption.bind
        (fun o => (o.cmap "a").bind (fun e => e.correctness))) = some "correct" :=
  ⟨rfl, rfl⟩

/-- Claim C3 amended: a non-dict checker result, of any shape, is folded
through Python truthiness into an all-correct or all-incorrect verdict with
no error raised; only a dict result missing the ok key fails loudly with a
KeyError. -/
theorem custom_checker_truthiness (idset submission : List String)
    (ret : CheckerRet) (cleanup : String → String) (hnd : ret.isDict = false) :
    customResponse_run_checker idset submission ret cleanup =
      Except.ok ⟨buildCorrectMap idset
          (List.replicate idset.length (if ret.truthy then "correct" else "incorrect"))
          (List.replicate idset.length ""), true, true⟩ ∧
    (∀ msg, customResponse_run_checker idset submission (CheckerRet.dict none msg) cleanup
        = Except.error "KeyError") := by
  constructor
  · cases ret with
    | dict ok msg => simp [CheckerRet.isDict] at hnd
    | bool b => rfl
    | int n => rfl
    | str s => rfl
    | pynone => rfl
  · intro msg; rfl

theorem custom_checker_truthiness_witness :
    customResponse_run_checker ["a"] ["x"] (CheckerRet.str "") (fun s => s) =
      Except.ok ⟨buildCorrectMap ["a"] ["incorrect"] [""], true, true⟩ :=
  (custom_checker_truthiness ["a"] ["x"] (CheckerRet.str "") (fun s => s) rfl).1

/-- Membership is preserved by the insertion step of pySorted. -/
theorem mem_insertSorted (a b : String) (l : List String) :
    b ∈ insertSorted a l ↔ b = a ∨ b ∈ l := by
  induction l with
  | nil => simp [insertSorted]
  | cons c cs ih =>
      unfold insertSorted
      by_cases h : a ≤ c
      · rw [if_pos h]
        simp [List.mem_cons]
      · rw [if_neg h]
        simp only [List.mem_cons, ih]
        tauto

/-- Membership is preserved by pySorted. -/
theorem mem_pySorted (a : String) (l : List String) : a ∈ pySorted l ↔ a ∈ l := by
  unfold pySorted
  induction l with
  | nil => simp
  | cons b bs ih => simp [List.foldr_cons, mem_insertSorted, ih]

/-- Invariant of the award ingestion loop when the verdict list is the
singleton [v]: any entry of a returned map carries verdict v, and every
processed key is bound. -/
theorem awardLoop_invariant (idset : List String) (v message : String) :
    ∀ (keys : List String) (acc m : CMap),
      awardLoop idset [v] message keys acc = Except.ok m →
      (∀ k e, acc k = some e → e.correctness = some v) →
      (∀ k e, m k = some e → e.correctness = some v) ∧
      (∀ k, ((acc k).isSome = true ∨ k ∈ keys) → (m k).isSome = true) := by
  intro keys
  induction keys with
  | nil =>
      intro acc m h hacc
      unfold awardLoop at h
      cases h
      refine ⟨hacc, fun k hk => ?_⟩
      rcases hk with hk | hk
      · exact hk
      · cases hk
  | cons key rest ih =>
      intro acc m h hacc
      unfold awardLoop at h
      cases hidx : idset.indexOf key with
      | zero =>
          rw [hidx] at h
          simp only [List.get?] at h
          obtain ⟨ih1, ih2⟩ := ih _ m h (by
            intro k e he
            unfold CMap.set at he
            by_cases hk : k = key
            · rw [if_pos hk] at he
              cases he
              rfl
            · rw [if_neg hk] at he
              exact hacc k e he)
          refine ⟨ih1, fun k hk => ?_⟩
          rcases hk with hk | hk
          · refine ih2 k (Or.inl ?_)
            unfold CMap.set
            by_cases hke : k = key
            · rw [if_pos hke]; rfl
            · rw [if_neg hke]; exact hk
          · rcases List.mem_cons.mp hk with hke | hkr
            · refine ih2 k (Or.inl ?_)
              unfold CMap.set
              rw [if_pos hke]
              rfl
            · exact ih2 k (Or.inr hkr)
      | succ n =>
          rw [hidx] at h
          simp only [List.get?] at h
          cases h

/-- An award ingestion that returns gives every bound entry the verdict
selected by the award-detail code, and binds every answer id. -/
theorem awardIngest_props (answer_ids : List String) (ad message : String)
    (m : CMap) (h : awardIngest answer_ids ad message = Except.ok m) :
    (∀ k e, m k = some e → e.correctness = some (awardVerdict ad)) ∧
    (∀ k, k ∈ answer_ids → (m k).isSome = true) := by
  unfold awardIngest at h
  obtain ⟨h1, h2⟩ := awardLoop_invariant (pySorted answer_ids) (awardVerdict ad)
    message (pySorted answer_ids) CMap.empty m h (by intro k e he; cases he)
  exact ⟨h1, fun k hk => h2 k (Or.inr ((mem_pySorted k answer_ids).mpr hk))⟩

/-- Claim C2: in both the queued CodeResponse.update_score path and the
synchronous ExternalResponse.get_score path, when ingestion returns a map,
every answer id is bound and every bound entry carries the verdict of the
award-detail code: EXACT_ANS maps to correct, WRONG_FORMAT to incorrect,
and every other code falls through to the default correct. -/
theorem award_codes_default_correct (answer_ids : List String)
    (ad message : String) (m m2 : CMap)
    (h1 : codeResponse_update_score answer_ids ad message = Except.ok m)
    (h2 : externalResponse_get_score_ingest answer_ids ad message = Except.ok m2) :
    (∀ k e, m k = some e → e.correctness = some (awardVerdict ad)) ∧
    (∀ k, k ∈ answer_ids → (m k).isSome = true) ∧
    (∀ k e, m2 k = some e → e.correctness = some (awardVerdict ad)) ∧
    (∀ k, k ∈ answer_ids → (m2 k).isSome = true) ∧
    awardVerdict "EXACT_ANS" = "correct" ∧
    awardVerdict "WRONG_FORMAT" = "incorrect" ∧
    (ad ≠ "EXACT_ANS" → ad ≠ "WRONG_FORMAT" → awardVerdict ad = "correct") := by
  obtain ⟨a1, a2⟩ := awardIngest_props answer_ids ad message m h1
  obtain ⟨b1, b2⟩ := awardIngest_props answer_ids ad message m2 h2
  refine ⟨a1, a2, b1, b2, rfl, rfl, ?_⟩
  intro hne1 hne2
  unfold awardVerdict admap
  rw [if_neg hne1, if_neg hne2]

theorem award_codes_default_correct_witness :
    awardVerdict "EXACT_ANS" = "correct" ∧
    awardVerdict "WRONG_FORMAT" = "incorrect" ∧
    awardVerdict "NOT_A_CODE" = "correct" :=
  ⟨(award_codes_default_correct ["a"] "NOT_A_CODE" "hi" _ _ rfl rfl).2.2.2.2.1,
   (award_codes_default_correct ["a"] "NOT_A_CODE" "hi" _ _ rfl rfl).2.2.2.2.2.1,
   (award_codes_default_correct ["a"] "NOT_A_CODE" "hi" _ _ rfl rfl).2.2.2.2.2.2
     (by decide) (by decide)⟩

/-- Folding the last-match scan from an arbitrary initial accumulator. -/
theorem lastMatching_init (shows : List String) (l : List HintPart)
    (init : Option HintPart) :
    l.foldl (lastMatchingStep shows) init =
      match lastMatching shows l with
      | some y => some y
      | none => init := by
  induction l generalizing init with
  | nil => rfl
  | cons hp rest ih =>
      have e1 : (hp :: rest).foldl (lastMatchingStep shows) init
          = rest.foldl (lastMatchingStep shows) (lastMatchingStep shows init hp) := rfl
      have e2 : lastMatching shows (hp :: rest)
          = rest.foldl (lastMatchingStep shows) (lastMatchingStep shows none hp) := rfl
      rw [e1, e2, ih, ih]
      cases lastMatching shows rest with
      | some y => rfl
      | none =>
          unfold lastMatchingStep
          by_cases h : hp.onName ∈ shows
          · rw [if_pos h, if_pos h]
          · rw [if_neg h, if_neg h]

/-- Storing hint and mode on an entry coincides with applyHint at that
answer id. -/
theorem set_hint_and_mode_self (m : CMap) (aid mode : String) (hp : HintPart) :
    (m.set_hint_and_mode aid hp.text mode) aid = applyHint mode (some hp) (m aid) := by
  unfold CMap.set_hint_and_mode applyHint
  rw [if_pos rfl]

/-- Storing hint and mode does not touch other answer ids. -/
theorem set_hint_and_mode_other (m : CMap) (aid text mode k : String)
    (h : k ≠ aid) : (m.set_hint_and_mode aid text mode) k = m k := by
  unfold CMap.set_hint_and_mode
  rw [if_neg h]

/-- A later hint write absorbs an earlier one on the same entry. -/
theorem applyHint_applyHint (mode : String) (y hp : HintPart)
    (e : Option CmapEntry) :
    applyHint mode (some y) (applyHint mode (some hp) e)
      = applyHint mode (some y) e := by
  cases e <;> rfl

/-- Specification of the hint-attachment loop: it only ever writes the last
answer id, and the entry there ends as applyHint of the last matching
hintpart. -/
theorem hints_fold_spec (shows : List String) (hintmode : String)
    (answer_ids : List String) (lastId : String)
    (hlast : answer_ids.getLast? = some lastId) :
    ∀ (hintparts : List HintPart) (acc m : CMap),
      loncapaResponse_get_hints answer_ids shows hintmode hintparts acc
        = Except.ok m →
      (∀ k, k ≠ lastId → m k = acc k) ∧
      m lastId = applyHint hintmode (lastMatching shows hintparts) (acc lastId) := by
  intro hintparts
  induction hintparts with
  | nil =>
      intro acc m h
      unfold loncapaResponse_get_hints at h
      cases h
      exact ⟨fun _ _ => rfl, rfl⟩
  | cons hp rest ih =>
      intro acc m h
      unfold loncapaResponse_get_hints at h
      by_cases hmem : hp.onName ∈ shows
      · rw [if_pos hmem, hlast] at h
        obtain ⟨ih1, ih2⟩ := ih (acc.set_hint_and_mode lastId hp.text hintmode) m h
        have hstep : lastMatching shows (hp :: rest)
            = match lastMatching shows rest with
              | some y => some y
              | none => some hp := by
          have e2 : lastMatching shows (hp :: rest)
              = rest.foldl (lastMatchingStep shows) (lastMatchingStep shows none hp) := rfl
          rw [e2, lastMatching_init]
          unfold lastMatchingStep
          rw [if_pos hmem]
        refine ⟨fun k hk => (ih1 k hk).trans (set_hint_and_mode_other acc lastId hp.text hintmode k hk), ?_⟩
        rw [ih2, set_hint_and_mode_self acc lastId hintmode hp, hstep]
        cases lastMatching shows rest with
        | some y => exact applyHint_applyHint hintmode y hp (acc lastId)
        | none => rfl
      · rw [if_neg hmem] at h
        obtain ⟨ih1, ih2⟩ := ih acc m h
        have hstep : lastMatching shows (hp :: rest) = lastMatching shows rest := by
          have e2 : lastMatching shows (hp :: rest)
              = rest.foldl (lastMatchingStep shows) (lastMatchingStep shows none hp) := rfl
          rw [e2]
          unfold lastMatchingStep
          rw [if_neg hmem]
          rfl
        rw [hstep]
        exact ⟨ih1, ih2⟩

/-- Claim C8: with no hint function declared, the condition-based hint loop
writes only the last answer id of the ordered field list; starting from a
hint-free map at most one answer id ever carries a hint; and the hint
stored is that of the last matching hintpart in document order
(last-write-wins), with the group display mode. -/
theorem hints_attach_last_answer_id (answer_ids hints_to_show : List String)
    (hintmode : String) (hintparts : List HintPart) (new_cmap : CMap)
    (lastId : String) (hlast : answer_ids.getLast? = some lastId) (m : CMap)
    (hm : loncapaResponse_get_hints answer_ids hints_to_show hintmode hintparts new_cmap
      = Except.ok m) :
    (∀ k, k ≠ lastId → m k = new_cmap k) ∧
    m lastId = applyHint hintmode (lastMatching hints_to_show hintparts) (new_cmap lastId) ∧
    ((∀ k, (new_cmap k).bind (fun e => e.hint) = none) →
      ∀ k, (m k).bind (fun e => e.hint) ≠ none → k = lastId) := by
  obtain ⟨h1, h2⟩ := hints_fold_spec hints_to_show hintmode answer_ids lastId hlast
    hintparts new_cmap m hm
  refine ⟨h1, h2, ?_⟩
  intro hfree k hk
  by_contra hne
  rw [h1 k hne] at hk
  exact hk (hfree k)

theorem hints_attach_last_answer_id_witness :
    (CMap.set_hint_and_mode (CMap.set_hint_and_mode CMap.empty "b" "t1" "always")
        "b" "t2" "always") "b"
      = applyHint "always"
          (lastMatching ["h1", "h2"] [⟨"h1", "t1"⟩, ⟨"nomatch", "tx"⟩, ⟨"h2", "t2"⟩])
          (CMap.empty "b") :=
  (hints_attach_last_answer_id ["a", "b"] ["h1", "h2"] "always"
    [⟨"h1", "t1"⟩, ⟨"nomatch", "tx"⟩, ⟨"h2", "t2"⟩] CMap.empty "b" rfl _ rfl).2.1

/-- A passing head trial makes check_formula proceed to the remaining
trials. -/
theorem check_formula_cons_pass (ieval seval : Env → EvalOutcome)
    (tol : Tolerance) (env : Env) (rest : List Env)
    (h : trialPasses ieval seval tol env = true) :
    formulaResponse_check_formula ieval seval (env :: rest) tol
      = formulaResponse_check_formula ieval seval rest tol := by
  unfold trialPasses at h
  rw [formulaResponse_check_formula.eq_def]
  dsimp only
  cases hi : ieval env with
  | undefinedVar n => rw [hi] at h; cases h
  | evalError m => rw [hi] at h; cases h
  | ok ir =>
      rw [hi] at h
      cases hs : seval env with
      | undefinedVar n => rw [hs] at h; cases h
      | evalError m => rw [hs] at h; cases h
      | ok sr =>
          rw [hs] at h
          dsimp only at h
          simp only [Bool.and_eq_true, Bool.not_eq_true'] at h
          obtain ⟨⟨hn, hf⟩, hc⟩ := h
          simp [hn, hf, hc]

/-- A head trial that evaluates on both sides but fails (non-finite or out
of tolerance) makes check_formula return incorrect. -/
theorem check_formula_cons_fail (ieval seval : Env → EvalOutcome)
    (tol : Tolerance) (env : Env) (rest : List Env)
    (hok : trialEvalsOk ieval seval env = true)
    (hfail : trialPasses ieval seval tol env = false) :
    formulaResponse_check_formula ieval seval (env :: rest) tol
      = Except.ok "incorrect" := by
  unfold trialEvalsOk at hok
  unfold trialPasses at hfail
  rw [formulaResponse_check_formula.eq_def]
  dsimp only
  cases hi : ieval env with
  | undefinedVar n => rw [hi] at hok; cases hok
  | evalError m => rw [hi] at hok; cases hok
  | ok ir =>
      rw [hi] at hok hfail
      cases hs : seval env with
      | undefinedVar n => rw [hs] at hok; cases hok
      | evalError m => rw [hs] at hok; cases hok
      | ok sr =>
          rw [hs] at hfail
          dsimp only at hfail
          cases hnan : sr.isNaN with
          | true => simp [hnan]
          | false =>
              cases hinf : sr.isInf with
              | true => simp [hnan, hinf]
              | false =>
                  rw [hnan, hinf] at hfail
                  simp only [Bool.not_false, Bool.true_and] at hfail
                  simp [hnan, hinf, hfail]

/-- A failing head trial means check_formula cannot return correct. -/
theorem check_formula_cons_not_correct (ieval seval : Env → EvalOutcome)
    (tol : Tolerance) (env : Env) (rest : List Env)
    (hfail : trialPasses ieval seval tol env = false) :
    formulaResponse_check_formula ieval seval (env :: rest) tol
      ≠ Except.ok "correct" := by
  unfold trialPasses at hfail
  rw [formulaResponse_check_formula.eq_def]
  dsimp only
  cases hi : ieval env with
  | undefinedVar n => simp
  | evalError m => simp
  | ok ir =>
      rw [hi] at hfail
      cases hs : seval env with
      | undefinedVar n => simp
      | evalError m => simp
      | ok sr =>
          rw [hs] at hfail
          dsimp only at hfail
          cases hnan : sr.isNaN with
          | true => simp [hnan]
          | false =>
              cases hinf : sr.isInf with
              | true => simp [hnan, hinf]
              | false =>
                  rw [hnan, hinf] at hfail
                  simp only [Bool.not_false, Bool.true_and] at hfail
                  simp [hnan, hinf, hfail]

/-- Claim C1: check_formula returns correct exactly when every sampled
trial passes (both evaluations return, the student result is finite and it
is within tolerance of the instructor result under the same bindings); and
when all trials evaluate but some trial has a non-finite or out-of-tolerance
student result, the verdict is incorrect. -/
theorem formula_check_correct_iff_all_trials_pass (ieval seval : Env → EvalOutcome)
    (samples : List Env) (tol : Tolerance) :
    (formulaResponse_check_formula ieval seval samples tol = Except.ok "correct" ↔
      ∀ env ∈ samples, trialPasses ieval seval tol env = true) ∧
    ((∀ env ∈ samples, trialEvalsOk ieval seval env = true) →
      (∃ env ∈ samples, trialPasses ieval seval tol env = false) →
      formulaResponse_check_formula ieval seval samples tol = Except.ok "incorrect") := by
  induction samples with
  | nil =>
      refine ⟨⟨fun _ env he => absurd he (List.not_mem_nil env), fun _ => rfl⟩, ?_⟩
      rintro _ ⟨env, he, _⟩
      exact absurd he (List.not_mem_nil env)
  | cons env rest ih =>
      refine ⟨?_, ?_⟩
      · by_cases hp : trialPasses ieval seval tol env = true
        · rw [check_formula_cons_pass ieval seval tol env rest hp]
          constructor
          · intro hc e he
            rcases List.mem_cons.mp he with rfl | hr
            · exact hp
            · exact (ih.1.mp hc) e hr
          · intro hall
            exact ih.1.mpr (fun e he => hall e (List.mem_cons_of_mem env he))
        · have hp2 : trialPasses ieval seval tol env = false :=
            Bool.eq_false_iff.mpr hp
          constructor
          · intro hc
            exact absurd hc (check_formula_cons_not_correct ieval seval tol env rest hp2)
          · intro hall
            exact absurd (hall env (List.mem_cons_self env rest)) hp
      · intro hok hex
        by_cases hp : trialPasses ieval seval tol env = true
        · rw [check_formula_cons_pass ieval seval tol env rest hp]
          refine ih.2 (fun e he => hok e (List.mem_cons_of_mem env he)) ?_
          rcases hex with ⟨e, he, hef⟩
          rcases List.mem_cons.mp he with rfl | hr
          · rw [hp] at hef; cases hef
          · exact ⟨e, hr, hef⟩
        · exact check_formula_cons_fail ieval seval tol env rest
            (hok env (List.mem_cons_self env rest)) (Bool.eq_false_iff.mpr hp)

theorem formula_check_correct_iff_all_trials_pass_witness :
    formulaResponse_check_formula (fun _ => EvalOutcome.ok ⟨false, false, 1⟩)
      (fun _ => EvalOutcome.ok ⟨false, false, 1⟩) [[("m", 1)]]
      (Tolerance.absolute 0) = Except.ok "correct" :=
  (formula_check_correct_iff_all_trials_pass (fun _ => EvalOutcome.ok ⟨false, false, 1⟩)
    (fun _ => EvalOutcome.ok ⟨false, false, 1⟩) [[("m", 1)]] (Tolerance.absolute 0)).1.mpr
    (by
      intro e _
      simp [trialPasses, compare_with_tolerance, within_tolerance, sub_self, abs_zero])

/-- Claim C4 counterexample: when the instructor-side evaluation of the
expected expression fails with an undefined-variable error, check_formula
does not raise StudentInputError; the UndefinedVariable exception
propagates uncaught, because the instructor evaluation runs outside the try
block. -/
theorem formula_instructor_undefined_counterexample :
    raisesStudentInput (formulaResponse_check_formula
        (fun _ => EvalOutcome.undefinedVar "k")
        (fun _ => EvalOutcome.ok ⟨false, false, 0⟩)
        [[]] (Tolerance.absolute 0)) = false ∧
    formulaResponse_check_formula (fun _ => EvalOutcome.undefinedVar "k")
        (fun _ => EvalOutcome.ok ⟨false, false, 0⟩)
        [[]] (Tolerance.absolute 0)
      = Except.error (CheckError.uncaughtUndefinedVariable "k") :=
  ⟨rfl, rfl⟩

/-- Claim C4 amended: on the first trial not decided earlier, only a
student-side undefined-variable failure raises StudentInputError (with the
"not permitted in answer" message); an instructor-side undefined-variable
failure propagates as the raw UndefinedVariable exception instead. -/
theorem formula_student_input_error_scope (ieval seval : Env → EvalOutcome)
    (pre rest : List Env) (env : Env) (tol : Tolerance)
    (hpre : ∀ e ∈ pre, trialPasses ieval seval tol e = true) :
    (∀ n, ieval env = EvalOutcome.undefinedVar n →
      formulaResponse_check_formula ieval seval (pre ++ env :: rest) tol
        = Except.error (CheckError.uncaughtUndefinedVariable n)) ∧
    (∀ ir n, ieval env = EvalOutcome.ok ir →
      seval env = EvalOutcome.undefinedVar n →
      formulaResponse_check_formula ieval seval (pre ++ env :: rest) tol
        = Except.error (CheckError.studentInput (n ++ " not permitted in answer"))) := by
  revert hpre
  induction pre with
  | nil =>
      intro _
      refine ⟨fun n hn => ?_, fun ir n hi hs => ?_⟩
      · rw [List.nil_append]
        unfold formulaResponse_check_formula
        rw [hn]
      · rw [List.nil_append]
        unfold formulaResponse_check_formula
        rw [hi, hs]
  | cons p ps ih =>
      intro hpre
      have hp := hpre p (List.mem_cons_self p ps)
      obtain ⟨ih1, ih2⟩ := ih (fun e he => hpre e (List.mem_cons_of_mem p he))
      refine ⟨fun n hn => ?_, fun ir n hi hs => ?_⟩
      · rw [List.cons_append,
          check_formula_cons_pass ieval seval tol p (ps ++ env :: rest) hp]
        exact ih1 n hn
      · rw [List.cons_append,
          check_formula_cons_pass ieval seval tol p (ps ++ env :: rest) hp]
        exact ih2 ir n hi hs

theorem formula_student_input_error_scope_witness :
    formulaResponse_check_formula (fun _ => EvalOutcome.ok ⟨false, false, 1⟩)
      (fun _ => EvalOutcome.undefinedVar "Q") [[]] (Tolerance.absolute 0)
      = Except.error (CheckError.studentInput ("Q" ++ " not permitted in answer")) :=
  (formula_student_input_error_scope (fun _ => EvalOutcome.ok ⟨false, false, 1⟩)
    (fun _ => EvalOutcome.undefinedVar "Q") [] [] [] (Tolerance.absolute 0)
    (fun e he => absurd he (List.not_mem_nil e))).2
    ⟨false, false, 1⟩ "Q" rfl rfl

end Capa
